import Mathlib

/-!
Verification development for the mcms bulk-build helpers.

The repository drives a remote Minecraft server through
`mcms.connection.Connection`.  The files under examples define, in
Python, the batch machinery this development embeds:

* `split_list`  — chunking of a block list via a Python list slice
  comprehension over range(0, len, size);
* `modify_start_location`, `to_block`, `create_blocks` — enumeration of the
  non-air cells of a Litematica region into Block values;
* `fill` — a rectangular volume of copies of one block;
* `build_region` / `clear_region` — chunked dispatch of the block list over
  the connection, returning the status of the last chunk.

Python integers are embedded as Int, Python lists as List, raised
exceptions as error results (Option / Except).  Python range, slice and
str.split semantics are embedded by the py-prefixed helpers below.
-/

/-- Coordinates of mcms.data.Location (integer world coordinates). -/
structure Location where
  x : Int
  y : Int
  z : Int

deriving DecidableEq

/-- mcms.data.Enchantment: a name and a level. -/
structure Enchantment where
  name : String
  level : Int

deriving DecidableEq

/-- mcms.data.ItemStack: item name, inventory slot, count, enchantments. -/
structure ItemStack where
  name : String
  index : Int
  count : Int
  enchantments : List Enchantment

deriving DecidableEq

/-- mcms.data.Block: namespace, name, location, state (property name to
string value, in insertion order) and inventory. -/
structure Block where
  «namespace» : String
  name : String
  location : Location
  state : List (String × String)
  inventory : List ItemStack

deriving DecidableEq

/-- Modelled from the spec: the mcms.data.Block dataclass itself is not under
src/, only its call sites are.  Spec section 3 gives the field defaults a call
such as Block(name=..., location=...) relies on: namespace defaults to
"minecraft", state and inventory default to empty. -/
def Block.ofName (name : String) (location : Location) : Block :=
  ⟨"minecraft", name, location, [], []⟩

/-- Number of elements of Python's range(start, stop, step) for step ≠ 0
(CPython clamps a negative count to zero; toNat does the clamping here). -/
def pyRangeLen (start stop step : Int) : Nat :=
  if 0 < step then ((stop - start).toNat + step.toNat - 1) / step.toNat
  else ((start - stop).toNat + (-step).toNat - 1) / (-step).toNat

/-- Python's range(start, stop, step): ValueError (none) when step = 0,
otherwise the arithmetic progression start, start+step, ... -/
def pyRange (start stop step : Int) : Option (List Int) :=
  if step = 0 then none
  else some ((List.range (pyRangeLen start stop step)).map
    (fun (i : Nat) => start + step * (i : Int)))

/-- Clamped nonnegative index of a Python slice bound for a list of length n:
a negative bound counts from the end, any bound is clamped into [0, n]. -/
def pyBound (n : Nat) (i : Int) : Nat :=
  if i < 0 then (i + n).toNat else min i.toNat n

/-- Python's slice my_list[a:b] (unit step). -/
def pySlice (l : List α) (a b : Int) : List α :=
  (l.take (pyBound l.length b)).drop (pyBound l.length a)

/-- split_list from the notebook:
[my_list[i:i+sublist_size] for i in range(0, len(my_list), sublist_size)].
none embeds the ValueError range raises when sublist_size is zero. -/
def split_list (my_list : List α) (sublist_size : Int) : Option (List (List α)) :=
  (pyRange 0 my_list.length sublist_size).map
    (fun idxs => idxs.map (fun i => pySlice my_list i (i + sublist_size)))

/-- Python's str.split with a one-character separator, on the character
list of the string: "a:b:c" gives ["a","b","c"], "" gives [""]. -/
def pySplitChars (sep : Char) : List Char → List (List Char)
  | [] => [[]]
  | c :: cs =>
    let r := pySplitChars sep cs
    if c = sep then [] :: r
    else
      match r with
      | [] => [[c]]
      | h :: t => (c :: h) :: t

/-- Python's s.split(sep) for a one-character separator sep. -/
def pySplit (s : String) (sep : Char) : List String :=
  (pySplitChars sep s.toList).map (fun cs => String.mk cs)

/-- A litemapy BlockState as the core consumes it (an external collaborator
of the spec): a block identifier and its property map, with the property
values already rendered to strings the way to_block's str(k)/str(v) does. -/
structure BlockState where
  id : String
  properties : List (String × String)

/-- A litemapy Region as the notebook consumes it: the min_x/min_y/min_z
anchors, the coordinate ranges xrange()/yrange()/zrange(), and the cell
lookup region[x, y, z]. -/
structure Region where
  min_x : Int
  min_y : Int
  min_z : Int
  xrange : List Int
  yrange : List Int
  zrange : List Int
  cells : Int → Int → Int → BlockState

/-- modify_start_location from the notebook: shift the start by
(-min_x-1, -min_y-1, -min_z-1). -/
def modify_start_location (location : Location) (region : Region) : Location :=
  ⟨location.x - region.min_x - 1, location.y - region.min_y - 1,
    location.z - region.min_z - 1⟩

/-- to_block from the notebook: namespace, name = block_state.id.split(":")
(tuple unpacking raises ValueError, embedded as none, unless the split has
exactly two parts), state = the stringified property map. -/
def to_block (block_state : BlockState) (location : Location) : Option Block :=
  match pySplit block_state.id ':' with
  | [ns, nm] => some ⟨ns, nm, location, block_state.properties, []⟩
  | _ => none

/-- The cell visit order of create_blocks' three nested loops:
x outermost, then y, then z. -/
def cellTriples (region : Region) : List (Int × Int × Int) :=
  region.xrange.flatMap (fun x =>
    region.yrange.flatMap (fun y =>
      region.zrange.map (fun z => (x, y, z))))

/-- The world location create_blocks assigns to cell (x, y, z):
Location(x=x+start_location.x, y=y+start_location.y, z=z+start_location.z). -/
def cellLocation (start_location : Location) (c : Int × Int × Int) : Location :=
  ⟨c.1 + start_location.x, c.2.1 + start_location.y, c.2.2 + start_location.z⟩

/-- One iteration of create_blocks' inner loop body: skip the cell when its
id is "minecraft:air", otherwise build one Block at the shifted location,
either named default_block_name or converted by to_block. -/
def cellBlocks (region : Region) (start_location : Location)
    (default_block_name : Option String) (c : Int × Int × Int) :
    Option (List Block) :=
  let block_state := region.cells c.1 c.2.1 c.2.2
  if block_state.id = "minecraft:air" then some []
  else
    let location := cellLocation start_location c
    match default_block_name with
    | some n => some [Block.ofName n location]
    | none => (to_block block_state location).map (fun b => [b])

/-- create_blocks' loop nest, cell by cell in visit order; the first raised
ValueError (none) aborts the whole enumeration, as in Python. -/
def create_blocks_aux (region : Region) (start_location : Location)
    (default_block_name : Option String) : List (Int × Int × Int) → Option (List Block)
  | [] => some []
  | c :: cs =>
    match cellBlocks region start_location default_block_name c,
        create_blocks_aux region start_location default_block_name cs with
    | some bs, some rest => some (bs ++ rest)
    | _, _ => none

/-- create_blocks from the notebook. -/
def create_blocks (region : Region) (start : Location)
    (default_block_name : Option String) : Option (List Block) :=
  create_blocks_aux region (modify_start_location start region) default_block_name
    (cellTriples region)

/-- Python's range(0, n) over Int, as a list of Int. -/
def intRange (n : Int) : List Int :=
  (List.range n.toNat).map (fun (i : Nat) => (i : Int))

/-- fill from the notebook: one Block per (x, y, z) in
range(0, x_length) × range(0, y_length) × range(0, z_length), each a copy of
block at the offset location. -/
def fill (block : Block) (x_length y_length z_length : Int) : List Block :=
  (intRange x_length).flatMap (fun x =>
    (intRange y_length).flatMap (fun y =>
      (intRange z_length).map (fun z =>
        ⟨block.«namespace», block.name,
          ⟨block.location.x + x, block.location.y + y, block.location.z + z⟩,
          block.state, block.inventory⟩)))

/-- A failure of one connection.set_blocks call that aborts instead of
returning a status: timeout or transport loss (spec sections 4.3 and 7). -/
inductive ChannelError
  | timeout
  | connectionLost

deriving DecidableEq

/-- How a build_region / clear_region call can end without a status:
a ChannelError raised by a chunk's set_blocks call, a ValueError raised
before the loop (zero chunk size or a malformed block identifier), or the
UnboundLocalError of reading result when zero chunks ran. -/
inductive PyErr
  | channelError (e : ChannelError)
  | valueError
  | unboundLocal

deriving DecidableEq

/-- The for-loop of build_region / clear_region over the chunk list:
result = connection.set_blocks(b, timeout) for each chunk b in order.
Modelled from the spec where connection.set_blocks itself is concerned
(mcms.connection is not under src/): per spec sections 4.3, 6 and 7 a
timeout or transport loss aborts the call, embedded here as the send
argument returning Except.error, which aborts the loop as a raised Python
exception would.  Returns the chunks actually dispatched, in order, and
either the raised error or the last value assigned to result. -/
def set_blocks_loop (send : List Block → Except ChannelError (Int × String)) :
    List (List Block) → Option (Int × String) →
      List (List Block) × Except ChannelError (Option (Int × String))
  | [], result => ([], Except.ok result)
  | b :: bs, _ =>
    match send b with
    | Except.error e => ([b], Except.error e)
    | Except.ok r =>
      let rest := set_blocks_loop send bs (some r)
      (b :: rest.1, rest.2)

/-- build_region from the notebook, instrumented with the list of chunks
dispatched: create the blocks, split them, loop set_blocks over the chunks,
return result[0] of the last chunk (UnboundLocalError when no chunk ran). -/
def build_region_run (send : List Block → Except ChannelError (Int × String))
    (region : Region) (start : Location) (split_size : Int) :
    List (List Block) × Except PyErr Int :=
  match create_blocks region start none with
  | none => ([], Except.error PyErr.valueError)
  | some blocks =>
    match split_list blocks split_size with
    | none => ([], Except.error PyErr.valueError)
    | some blocks_set =>
      match set_blocks_loop send blocks_set none with
      | (tr, Except.error e) => (tr, Except.error (PyErr.channelError e))
      | (tr, Except.ok none) => (tr, Except.error PyErr.unboundLocal)
      | (tr, Except.ok (some r)) => (tr, Except.ok r.1)

/-- build_region's returned value alone. -/
def build_region (send : List Block → Except ChannelError (Int × String))
    (region : Region) (start : Location) (split_size : Int) : Except PyErr Int :=
  (build_region_run send region start split_size).2

/-- The default of build_region's split_size parameter. -/
def build_region_default_split_size : Int := 10000

/-- clear_region from the notebook, instrumented like build_region_run: the
same pipeline with create_blocks called with default_block_name="air". -/
def clear_region_run (send : List Block → Except ChannelError (Int × String))
    (region : Region) (start : Location) (split_size : Int) :
    List (List Block) × Except PyErr Int :=
  match create_blocks region start (some "air") with
  | none => ([], Except.error PyErr.valueError)
  | some blocks =>
    match split_list blocks split_size with
    | none => ([], Except.error PyErr.valueError)
    | some blocks_set =>
      match set_blocks_loop send blocks_set none with
      | (tr, Except.error e) => (tr, Except.error (PyErr.channelError e))
      | (tr, Except.ok none) => (tr, Except.error PyErr.unboundLocal)
      | (tr, Except.ok (some r)) => (tr, Except.ok r.1)

/-- clear_region's returned value alone. -/
def clear_region (send : List Block → Except ChannelError (Int × String))
    (region : Region) (start : Location) (split_size : Int) : Except PyErr Int :=
  (clear_region_run send region start split_size).2

/-- The default of clear_region's split_size parameter. -/
def clear_region_default_split_size : Int := 10000

/-- The air block the spec's clear batch overrides every block to:
name "air", default namespace, no state or inventory. -/
def override_to_air (b : Block) : Block :=
  ⟨"minecraft", "air", b.location, [], []⟩

/-- Modelled from the spec (section 4.4): clear as a set-batch over the very
block list of the set operation with every Block's identity overridden to
the air block, reusing the same chunking and the same dispatch loop. -/
def clear_region_spec_run (send : List Block → Except ChannelError (Int × String))
    (region : Region) (start : Location) (split_size : Int) :
    List (List Block) × Except PyErr Int :=
  match create_blocks region start none with
  | none => ([], Except.error PyErr.valueError)
  | some blocks =>
    match split_list (blocks.map override_to_air) split_size with
    | none => ([], Except.error PyErr.valueError)
    | some blocks_set =>
      match set_blocks_loop send blocks_set none with
      | (tr, Except.error e) => (tr, Except.error (PyErr.channelError e))
      | (tr, Except.ok none) => (tr, Except.error PyErr.unboundLocal)
      | (tr, Except.ok (some r)) => (tr, Except.ok r.1)

/-- mcms.data.Player: name, location and the online flag (spec section 3;
entity coordinates are embedded as integers). -/
structure Player where
  name : String
  location : Location
  is_online : Bool

deriving DecidableEq

/-- What one core operation observes from the session: either a server
response (a status code with a payload, covering ordinary rejection), or
one of the conditions that abort the call. -/
inductive ServerReply (π : Type)
  | reply (status : Int) (payload : π)
  | timeout
  | transportLost
  | authDenied

deriving DecidableEq

/-- The abort conditions of a core operation (spec section 7). -/
inductive ConnAbort
  | authenticationError
  | connectionError
  | channelTimeout

deriving DecidableEq

/-- Modelled from the spec: mcms.connection.Connection is not under src/,
only its call sites are.  Spec sections 6 and 7: every exposed operation
returns the status/result pair of the server's response — ordinary
server-side rejection travels through the status value — and only
authentication failure, transport loss and timeout abort instead. -/
def connection_result : ServerReply π → Except ConnAbort (Int × π)
  | ServerReply.reply s p => Except.ok (s, p)
  | ServerReply.timeout => Except.error ConnAbort.channelTimeout
  | ServerReply.transportLost => Except.error ConnAbort.connectionError
  | ServerReply.authDenied => Except.error ConnAbort.authenticationError

/-- Modelled from the spec: Connection.execute_commands' returned value. -/
def execute_commands (r : ServerReply String) : Except ConnAbort (Int × String) :=
  connection_result r

/-- Modelled from the spec: Connection.set_blocks' returned value (payload:
the applied blocks). -/
def set_blocks (r : ServerReply (List Block)) : Except ConnAbort (Int × List Block) :=
  connection_result r

/-- Modelled from the spec: Connection.get_blocks' returned value. -/
def get_blocks (r : ServerReply (List Block)) : Except ConnAbort (Int × List Block) :=
  connection_result r

/-- Modelled from the spec: Connection.get_players' returned value (payload:
the player list). -/
def get_players (r : ServerReply (List Player)) : Except ConnAbort (Int × List Player) :=
  connection_result r

/-- The cells create_blocks emits a Block for: those whose identifier is not
"minecraft:air", in visit order. -/
def nonAirCells (region : Region) : List (Int × Int × Int) :=
  (cellTriples region).filter
    (fun c => !((region.cells c.1 c.2.1 c.2.2).id == "minecraft:air"))

/-- Every non-air cell of the region carries a namespace-qualified
identifier: splitting it on the colon gives exactly two parts, as
to_block's tuple unpacking requires. -/
def WellFormedIds (region : Region) : Prop :=
  ∀ c ∈ nonAirCells region, (pySplit (region.cells c.1 c.2.1 c.2.2).id ':').length = 2

instance (region : Region) : Decidable (WellFormedIds region) := by
  unfold WellFormedIds
  infer_instance

/-- The Block create_blocks builds for a non-air cell c when no default name
is given, written as a function of the cell (total via a junk value on an
identifier to_block would reject). -/
def specBlock (region : Region) (start_location : Location)
    (c : Int × Int × Int) : Block :=
  let block_state := region.cells c.1 c.2.1 c.2.2
  match pySplit block_state.id ':' with
  | [ns, nm] => ⟨ns, nm, cellLocation start_location c, block_state.properties, []⟩
  | _ => Block.ofName "" (cellLocation start_location c)

/-- The chunking contract of split_list for a positive chunk size: it
succeeds, produces ceil(n/k) chunks of at most k elements each, and their
concatenation is the original list in the original order. -/
def SplitListSpec (l : List α) (k : Int) : Prop :=
  ∃ chunks, split_list l k = some chunks ∧
    chunks.length = (l.length + k.toNat - 1) / k.toNat ∧
    (∀ c ∈ chunks, c.length ≤ k.toNat) ∧
    chunks.flatten = l

deriving instance DecidableEq for Except

/-- The three-cell region of the spec's scenario: one stone, one dirt and
one granite cell along the z axis. -/
def exBlockState (z : Int) : BlockState :=
  if z = 0 then ⟨"minecraft:stone", []⟩
  else if z = 1 then ⟨"minecraft:dirt", []⟩
  else ⟨"minecraft:granite", []⟩

def exRegion : Region :=
  ⟨0, 0, 0, [0], [0], [0, 1, 2], fun _ _ z => exBlockState z⟩

def exStart : Location := ⟨1, 1, 1⟩

def exStone : Block := ⟨"minecraft", "stone", ⟨0, 0, 0⟩, [], []⟩

def exDirt : Block := ⟨"minecraft", "dirt", ⟨0, 0, 1⟩, [], []⟩

def exGranite : Block := ⟨"minecraft", "granite", ⟨0, 0, 2⟩, [], []⟩

/-- A session whose set_blocks call times out exactly on the chunk holding
the dirt block (the second of the three size-1 chunks). -/
def exSend (chunk : List Block) : Except ChannelError (Int × String) :=
  if chunk.any (fun b => b.name == "dirt") then Except.error ChannelError.timeout
  else Except.ok (0, "ok")

/-- The chunk-dispatch pipeline both region operations share, as a function
of the enumerated block list: split, loop connection.set_blocks over the
chunks, return result[0] of the last chunk.  build_region_run and
clear_region_run are definitionally this pipeline over their respective
block enumerations. -/
def region_pipeline (send : List Block → Except ChannelError (Int × String))
    (blocks_opt : Option (List Block)) (split_size : Int) :
    List (List Block) × Except PyErr Int :=
  match blocks_opt with
  | none => ([], Except.error PyErr.valueError)
  | some blocks =>
    match split_list blocks split_size with
    | none => ([], Except.error PyErr.valueError)
    | some blocks_set =>
      match set_blocks_loop send blocks_set none with
      | (tr, Except.error e) => (tr, Except.error (PyErr.channelError e))
      | (tr, Except.ok none) => (tr, Except.error PyErr.unboundLocal)
      | (tr, Except.ok (some r)) => (tr, Except.ok r.1)

/-- The status discipline of a chunked region operation: a normal return
happens only when at least one chunk was dispatched, the returned value is
the status of the last dispatched chunk alone, and an empty block list
makes the final return result[0] read a never-assigned variable, aborting
with an error instead of returning a status. -/
def LastChunkStatusSpec (send : List Block → Except ChannelError (Int × String))
    (run : List (List Block) × Except PyErr Int)
    (blocks_opt : Option (List Block)) : Prop :=
  (blocks_opt = some [] → run.2 = Except.error PyErr.unboundLocal) ∧
    ∀ s : Int, run.2 = Except.ok s →
      ∃ tr c m, run.1 = tr ++ [c] ∧ send c = Except.ok (s, m)

/-- The chunking a region operation performs on its enumerated block list:
the split succeeds, every chunk holds at most 10000 blocks, the chunks
concatenate back to the block list in order, and the chunks the run
dispatches are an initial segment of that chunk list. -/
def DefaultChunkingSpec (run : List (List Block) × Except PyErr Int)
    (blocks : List Block) (k : Int) : Prop :=
  ∃ chunks, split_list blocks k = some chunks ∧
    (∀ c ∈ chunks, c.length ≤ 10000) ∧ chunks.flatten = blocks ∧
    ∃ rest, run.1 ++ rest = chunks

/-- A core operation returns the status/result pair for every server
response (ordinary rejection included), and errors out exactly on the three
abort conditions. -/
def StatusPairSpec (op : ServerReply π → Except ConnAbort (Int × π)) : Prop :=
  (∀ (s : Int) (p : π), op (ServerReply.reply s p) = Except.ok (s, p)) ∧
    ∀ r : ServerReply π, (∃ e, op r = Except.error e) ↔
      r = ServerReply.timeout ∨ r = ServerReply.transportLost ∨
        r = ServerReply.authDenied

/-- The contract of fill: exactly xl*yl*zl blocks, each a copy of the input
block placed at an offset (dx, dy, dz) inside the box, with the namespace,
name, state and inventory of the input block unchanged. -/
def FillSpec (block : Block) (xl yl zl : Int) : Prop :=
  (((fill block xl yl zl).length : Int) = xl * yl * zl) ∧
    ∀ b ∈ fill block xl yl zl, ∃ dx dy dz : Int,
      0 ≤ dx ∧ dx < xl ∧ 0 ≤ dy ∧ dy < yl ∧ 0 ≤ dz ∧ dz < zl ∧
      b.location = ⟨block.location.x + dx, block.location.y + dy,
        block.location.z + dz⟩ ∧
      b.«namespace» = block.«namespace» ∧ b.name = block.name ∧
      b.state = block.state ∧ b.inventory = block.inventory

/-- The enumeration contract of create_blocks with no default name: it
succeeds, emits exactly one Block per non-air cell in visit order (air
cells are skipped, never emitted as blocks or errors), and each emitted
Block carries the cell's namespace-qualified identifier (its namespace and
name are the two parts of the identifier split on the colon) and the cell's
full property map. -/
def NonAirEnumerationSpec (region : Region) (start : Location) : Prop :=
  create_blocks region start none
      = some ((nonAirCells region).map
        (specBlock region (modify_start_location start region))) ∧
    ∀ c ∈ nonAirCells region,
      pySplit (region.cells c.1 c.2.1 c.2.2).id ':'
          = [(specBlock region (modify_start_location start region) c).«namespace»,
            (specBlock region (modify_start_location start region) c).name] ∧
        (specBlock region (modify_start_location start region) c).state
          = (region.cells c.1 c.2.1 c.2.2).properties ∧
        (specBlock region (modify_start_location start region) c).inventory = []

example : pySplit "minecraft:stone" ':' = ["minecraft", "stone"] := by decide

example : pySplit "minecraft" ':' = ["minecraft"] := by decide

example : pySplit "a:b:c" ':' = ["a", "b", "c"] := by decide

example : split_list [1, 2, 3, 4, 5] 2 = some [[1, 2], [3, 4], [5]] := by decide

example : split_list ([1, 2, 3] : List Nat) 0 = none := by decide

example : split_list ([1, 2, 3] : List Nat) (-2) = some [] := by decide

example : split_list ([] : List Nat) 3 = some [] := by decide

theorem take_min_length (l : List α) (b : Nat) : l.take (min b l.length) = l.take b := by
  rcases Nat.le_total b l.length with h | h
  · rw [Nat.min_eq_left h]
  · rw [Nat.min_eq_right h, List.take_length, List.take_of_length_le h]

theorem drop_min_length (l l' : List α) (a : Nat) (h : l'.length ≤ l.length) :
    l'.drop (min a l.length) = l'.drop a := by
  rcases Nat.le_total a l.length with h1 | h1
  · rw [Nat.min_eq_left h1]
  · rw [Nat.min_eq_right h1, List.drop_eq_nil_of_le h,
      List.drop_eq_nil_of_le (le_trans h h1)]

theorem pySlice_ofNat (l : List α) (a b : Nat) :
    pySlice l (a : Int) (b : Int) = (l.take b).drop a := by
  unfold pySlice pyBound
  rw [if_neg (by omega), if_neg (by omega)]
  simp only [Int.toNat_ofNat]
  rw [take_min_length]
  exact drop_min_length l (l.take b) a (by simp)

/-- Closed form of split_list for a positive chunk size. -/
theorem split_list_ofNat (k : Nat) (hk : 1 ≤ k) (l : List α) :
    split_list l (k : Int) = some ((List.range ((l.length + k - 1) / k)).map
      (fun j => (l.drop (k * j)).take k)) := by
  unfold split_list pyRange pyRangeLen
  rw [if_neg (by omega : ¬ (k : Int) = 0), if_pos (by omega : (0 : Int) < (k : Int))]
  simp only [Option.map_some', List.map_map, Int.sub_zero, Int.toNat_ofNat]
  congr 1
  apply List.map_congr_left
  intro j _
  show pySlice l (0 + (k : Int) * (j : Int)) (0 + (k : Int) * (j : Int) + (k : Int))
      = (l.drop (k * j)).take k
  have h1 : (0 : Int) + (k : Int) * (j : Int) = ((k * j : Nat) : Int) := by push_cast; ring
  have h2 : ((k * j : Nat) : Int) + (k : Int) = ((k * j + k : Nat) : Int) := by
    push_cast; ring
  rw [h1, h2, pySlice_ofNat, List.drop_take]
  congr 1
  omega

/-- Concatenating the first m chunks of size k recovers the first k*m
elements. -/
theorem chunks_flatten (k : Nat) :
    ∀ (m : Nat) (l : List α),
      ((List.range m).map (fun j => (l.drop (k * j)).take k)).flatten = l.take (k * m)
  | 0, l => by simp
  | m + 1, l => by
    rw [List.range_succ_eq_map]
    simp only [List.map_cons, List.map_map, List.flatten_cons, Nat.mul_zero,
      List.drop_zero]
    have h1 : ((fun j => (l.drop (k * j)).take k) ∘ Nat.succ)
        = fun j => ((l.drop k).drop (k * j)).take k := by
      funext j
      simp only [Function.comp_apply, List.drop_drop]
      congr 2
      simp [Nat.succ_eq_add_one]
      ring
    rw [h1, chunks_flatten k m (l.drop k), ← List.take_add]
    congr 1
    ring

/-- n ≤ k * ceil(n / k) for positive k. -/
theorem le_mul_ceilDiv (k n : Nat) (hk : 1 ≤ k) : n ≤ k * ((n + k - 1) / k) := by
  rcases Nat.eq_zero_or_pos n with h | h
  · simp [h]
  · have h1 : n + k - 1 = (n - 1) + k := by omega
    rw [h1, Nat.add_div_right _ (by omega : 0 < k), Nat.mul_add, Nat.mul_one]
    have h2 := Nat.div_add_mod (n - 1) k
    have h3 : (n - 1) % k < k := Nat.mod_lt _ (by omega)
    generalize k * ((n - 1) / k) = t at h2 ⊢
    generalize (n - 1) % k = r at h2 h3
    omega

/-- split_list satisfies the chunking contract for every positive size. -/
theorem split_list_pos_spec (l : List α) (k : Int) (hk : 1 ≤ k) :
    SplitListSpec l k := by
  have hk0 : (0 : Int) ≤ k := by omega
  have hkn : (1 : Nat) ≤ k.toNat := by omega
  have hcast : ((k.toNat : Int)) = k := Int.toNat_of_nonneg hk0
  refine ⟨(List.range ((l.length + k.toNat - 1) / k.toNat)).map
    (fun j => (l.drop (k.toNat * j)).take k.toNat), ?_, ?_, ?_, ?_⟩
  · rw [← hcast]
    exact split_list_ofNat k.toNat hkn l
  · simp
  · intro c hc
    rcases List.mem_map.mp hc with ⟨j, _, rfl⟩
    calc ((l.drop (k.toNat * j)).take k.toNat).length
        = min k.toNat (l.drop (k.toNat * j)).length := List.length_take ..
      _ ≤ k.toNat := Nat.min_le_left _ _
  · rw [chunks_flatten]
    exact List.take_of_length_le (le_mul_ceilDiv k.toNat l.length hkn)

/-- C2: for every list of length n and every chunk size k ≥ 1, splitting the
list for batch dispatch produces exactly ceil(n/k) chunks, each chunk has at
most k elements, and the concatenation of the chunks in dispatch order
equals the original list in its original order. -/
theorem c2_split_list_chunking (l : List α) (k : Int) (hk : 1 ≤ k) :
    SplitListSpec l k :=
  split_list_pos_spec l k hk

/-- C2 witness: the contract at the concrete list [1,2,3,4,5] with chunk
size 2. -/
theorem c2_split_list_chunking_witness :
    (1 : Int) ≤ 2 ∧ SplitListSpec ([1, 2, 3, 4, 5] : List Nat) 2 :=
  ⟨by decide, c2_split_list_chunking ([1, 2, 3, 4, 5] : List Nat) 2 (by decide)⟩

/-- C10: split_list is well-defined only for a positive sublist_size.
With sublist_size = 0 the range raises (none); with a negative
sublist_size on a non-empty list the comprehension is silently empty,
discarding every element. -/
theorem c10_split_list_degenerate_sizes (l : List α) (k : Int)
    (hneg : k < 0) (_hne : l ≠ []) :
    split_list l (0 : Int) = none ∧ split_list l k = some [] := by
  constructor
  · unfold split_list pyRange
    rw [if_pos rfl]
    rfl
  · unfold split_list pyRange pyRangeLen
    rw [if_neg (by omega : ¬ k = 0), if_neg (by omega : ¬ (0 : Int) < k)]
    show some _ = some _
    have h1 : ((0 : Int) - (l.length : Int)).toNat = 0 := by omega
    rw [h1]
    have h2 : (0 + (-k).toNat - 1) / (-k).toNat = 0 := by
      apply Nat.div_eq_of_lt
      omega
    rw [h2]
    rfl

/-- C10 witness: the degenerate chunk sizes on the concrete list [1,2,3]. -/
theorem c10_split_list_degenerate_sizes_witness :
    ((-2 : Int) < 0 ∧ ([1, 2, 3] : List Nat) ≠ []) ∧
      split_list ([1, 2, 3] : List Nat) (0 : Int) = none ∧
      split_list ([1, 2, 3] : List Nat) (-2) = some [] :=
  ⟨⟨by decide, by decide⟩,
    c10_split_list_degenerate_sizes ([1, 2, 3] : List Nat) (-2) (by decide) (by decide)⟩

theorem set_blocks_loop_dispatched_initial
    (send : List Block → Except ChannelError (Int × String)) :
    ∀ (chunks : List (List Block)) (last : Option (Int × String)),
      ∃ rest, (set_blocks_loop send chunks last).1 ++ rest = chunks
  | [], _ => ⟨[], rfl⟩
  | b :: bs, _ => by
    unfold set_blocks_loop
    cases h : send b with
    | error e => exact ⟨bs, rfl⟩
    | ok r =>
      obtain ⟨rest, hrest⟩ := set_blocks_loop_dispatched_initial send bs (some r)
      exact ⟨rest, by simp only [List.cons_append, hrest]⟩

theorem set_blocks_loop_stops_at_failure
    (send : List Block → Except ChannelError (Int × String)) (e : ChannelError) :
    ∀ (pre : List (List Block)) (c : List Block) (post : List (List Block))
      (last : Option (Int × String)),
      (∀ p ∈ pre, ∃ r, send p = Except.ok r) → send c = Except.error e →
      set_blocks_loop send (pre ++ c :: post) last = (pre ++ [c], Except.error e)
  | [], c, post, last, _, hc => by
    simp only [List.nil_append]
    unfold set_blocks_loop
    rw [hc]
  | p :: pre, c, post, last, hpre, hc => by
    obtain ⟨r, hr⟩ := hpre p (List.mem_cons_self ..)
    have ih := set_blocks_loop_stops_at_failure send e pre c post (some r)
      (fun q hq => hpre q (List.mem_cons_of_mem _ hq)) hc
    simp only [List.cons_append]
    unfold set_blocks_loop
    rw [hr]
    show (p :: (set_blocks_loop send (pre ++ c :: post) (some r)).1,
        (set_blocks_loop send (pre ++ c :: post) (some r)).2)
      = (p :: (pre ++ [c]), Except.error e)
    rw [ih]

theorem set_blocks_loop_ok_last
    (send : List Block → Except ChannelError (Int × String)) :
    ∀ (chunks : List (List Block)) (last : Option (Int × String))
      (tr : List (List Block)) (r : Int × String),
      set_blocks_loop send chunks last = (tr, Except.ok (some r)) →
      (chunks = [] ∧ tr = [] ∧ last = some r) ∨
        ∃ tr' c, tr = tr' ++ [c] ∧ send c = Except.ok r
  | [], last, tr, r, h => by
    unfold set_blocks_loop at h
    simp only [Prod.mk.injEq, Except.ok.injEq] at h
    left
    exact ⟨rfl, h.1.symm, h.2⟩
  | b :: bs, last, tr, r, h => by
    unfold set_blocks_loop at h
    cases hb : send b with
    | error e =>
      rw [hb] at h
      simp only [Prod.mk.injEq] at h
      exact absurd h.2 (by simp)
    | ok rb =>
      rw [hb] at h
      simp only [Prod.mk.injEq] at h
      obtain ⟨h1, h2⟩ := h
      rcases set_blocks_loop_ok_last send bs (some rb)
          (set_blocks_loop send bs (some rb)).1 r
          (by rw [Prod.ext_iff]; exact ⟨rfl, h2⟩) with hnil | ⟨tr', c, htr, hc⟩
      · right
        refine ⟨[], b, ?_, ?_⟩
        · rw [← h1, hnil.2.1]
          rfl
        · rw [hb]
          obtain h3 := hnil.2.2
          injection h3 with h4
          rw [h4]
      · right
        exact ⟨b :: tr', c, by rw [← h1, htr]; rfl, hc⟩

theorem split_list_nil_pos (k : Int) (hk : 1 ≤ k) :
    split_list ([] : List Block) k = some [] := by
  obtain ⟨chunks, hs, hlen, _, _⟩ := split_list_pos_spec ([] : List Block) k hk
  rw [hs]
  congr 1
  have h0 : chunks.length = 0 := by
    rw [hlen]
    exact Nat.div_eq_of_lt (by simp; omega)
  exact List.length_eq_zero.mp h0

/-- C1 (amended): if a chunk of the bulk set operation fails with
ChannelError, the batch loop stops processing: the failing chunk is the
last one dispatched, the remaining chunks are never dispatched, and the
underlying error propagates to the caller as a raised exception.  No
applied-block count and no failed-chunk index are reported: the operation
aborts instead of returning a result. -/
theorem c1_chunk_failure_stops_batch
    (send : List Block → Except ChannelError (Int × String))
    (region : Region) (start : Location) (k : Int) (blocks : List Block)
    (pre : List (List Block)) (c : List Block) (post : List (List Block))
    (e : ChannelError)
    (hcb : create_blocks region start none = some blocks)
    (hsp : split_list blocks k = some (pre ++ c :: post))
    (hpre : ∀ p ∈ pre, ∃ r, send p = Except.ok r)
    (hc : send c = Except.error e) :
    build_region_run send region start k
      = (pre ++ [c], Except.error (PyErr.channelError e)) := by
  unfold build_region_run
  rw [hcb]
  dsimp only
  rw [hsp]
  dsimp only
  rw [set_blocks_loop_stops_at_failure send e pre c post none hpre hc]

/-- C1 counterexample: running the bulk set over three blocks with chunk
size 1 where the second chunk fails does stop after the second chunk (the
third is never dispatched), but it returns no result reporting
appliedCount = 1 and failedAtChunkIndex = 1: build_region aborts with the
raised ChannelError, and its returned value carries no applied count and
no failed-chunk index, refuting the claim as stated. -/
theorem c1_counterexample :
    build_region_run exSend exRegion exStart 1
      = ([[exStone], [exDirt]],
          Except.error (PyErr.channelError ChannelError.timeout)) := by
  decide

/-- C1 witness: the amended theorem applied to the concrete scenario. -/
theorem c1_chunk_failure_stops_batch_witness :
    build_region_run exSend exRegion exStart 1
      = ([[exStone]] ++ [[exDirt]],
          Except.error (PyErr.channelError ChannelError.timeout)) :=
  c1_chunk_failure_stops_batch exSend exRegion exStart 1
    [exStone, exDirt, exGranite] [[exStone]] [exDirt] [[exGranite]]
    ChannelError.timeout (by decide) (by decide)
    (by
      intro p hp
      rw [List.mem_singleton] at hp
      subst hp
      exact ⟨(0, "ok"), by decide⟩)
    (by decide)

theorem build_region_run_pipeline
    (send : List Block → Except ChannelError (Int × String))
    (region : Region) (start : Location) (k : Int) :
    build_region_run send region start k
      = region_pipeline send (create_blocks region start none) k := rfl

theorem clear_region_run_pipeline
    (send : List Block → Except ChannelError (Int × String))
    (region : Region) (start : Location) (k : Int) :
    clear_region_run send region start k
      = region_pipeline send (create_blocks region start (some "air")) k := rfl

theorem clear_region_spec_run_pipeline
    (send : List Block → Except ChannelError (Int × String))
    (region : Region) (start : Location) (k : Int) :
    clear_region_spec_run send region start k
      = region_pipeline send
          ((create_blocks region start none).map (List.map override_to_air)) k := by
  unfold clear_region_spec_run region_pipeline
  cases create_blocks region start none <;> rfl

theorem region_pipeline_empty
    (send : List Block → Except ChannelError (Int × String)) (k : Int)
    (hk : 1 ≤ k) :
    (region_pipeline send (some []) k).2 = Except.error PyErr.unboundLocal := by
  unfold region_pipeline
  dsimp only
  rw [split_list_nil_pos k hk]
  rfl

theorem region_pipeline_ok_last
    (send : List Block → Except ChannelError (Int × String))
    (blocks_opt : Option (List Block)) (k : Int) (s : Int)
    (h : (region_pipeline send blocks_opt k).2 = Except.ok s) :
    ∃ tr c m, (region_pipeline send blocks_opt k).1 = tr ++ [c] ∧
      send c = Except.ok (s, m) := by
  unfold region_pipeline at h ⊢
  cases blocks_opt with
  | none => exact absurd h (by simp)
  | some blocks =>
    dsimp only at h ⊢
    cases hs : split_list blocks k with
    | none =>
      rw [hs] at h
      exact absurd h (by simp)
    | some blocks_set =>
      rw [hs] at h
      dsimp only at h ⊢
      rcases hl : set_blocks_loop send blocks_set none with ⟨tr, res⟩
      rw [hl] at h
      cases res with
      | error e => exact absurd h (by simp)
      | ok o =>
        cases o with
        | none => exact absurd h (by simp)
        | some r =>
          dsimp only at h ⊢
          have hr : r.1 = s := by injection h
          rcases set_blocks_loop_ok_last send blocks_set none tr r hl with
            hnil | ⟨tr', c, htr, hc⟩
          · exact absurd hnil.2.2 (by simp)
          · refine ⟨tr', c, r.2, htr, ?_⟩
            rw [hc, ← hr]

theorem region_pipeline_trace_initial
    (send : List Block → Except ChannelError (Int × String))
    (blocks : List Block) (k : Int) (chunks : List (List Block))
    (hs : split_list blocks k = some chunks) :
    ∃ rest, (region_pipeline send (some blocks) k).1 ++ rest = chunks := by
  unfold region_pipeline
  dsimp only
  rw [hs]
  dsimp only
  rcases hl : set_blocks_loop send chunks none with ⟨tr, res⟩
  obtain ⟨rest, hrest⟩ := set_blocks_loop_dispatched_initial send chunks none
  rw [hl] at hrest
  cases res with
  | error e => exact ⟨rest, hrest⟩
  | ok o =>
    cases o with
    | none => exact ⟨rest, hrest⟩
    | some r => exact ⟨rest, hrest⟩

/-- C9: build_region and clear_region return a status only when at least
one chunk was dispatched, and the value returned is the status of the last
dispatched chunk alone; when the region contains no non-air cells (empty
block list, hence zero chunks), the final return result[0] reads a
never-assigned variable and the operation raises instead of returning. -/
theorem c9_last_chunk_status
    (send : List Block → Except ChannelError (Int × String))
    (region : Region) (start : Location) (k : Int) (hk : 1 ≤ k) :
    LastChunkStatusSpec send (build_region_run send region start k)
        (create_blocks region start none) ∧
      LastChunkStatusSpec send (clear_region_run send region start k)
        (create_blocks region start (some "air")) := by
  constructor
  · unfold LastChunkStatusSpec
    constructor
    · intro h
      rw [build_region_run_pipeline, h]
      exact region_pipeline_empty send k hk
    · intro s hs
      rw [build_region_run_pipeline] at hs ⊢
      exact region_pipeline_ok_last send _ k s hs
  · unfold LastChunkStatusSpec
    constructor
    · intro h
      rw [clear_region_run_pipeline, h]
      exact region_pipeline_empty send k hk
    · intro s hs
      rw [clear_region_run_pipeline] at hs ⊢
      exact region_pipeline_ok_last send _ k s hs

/-- C9 witness: the status discipline at the concrete three-cell region
with chunk size 1. -/
theorem c9_last_chunk_status_witness :
    (1 : Int) ≤ 1 ∧
      (LastChunkStatusSpec exSend (build_region_run exSend exRegion exStart 1)
          (create_blocks exRegion exStart none) ∧
        LastChunkStatusSpec exSend (clear_region_run exSend exRegion exStart 1)
          (create_blocks exRegion exStart (some "air"))) :=
  ⟨by decide, c9_last_chunk_status exSend exRegion exStart 1 (by decide)⟩

/-- C6: when no chunk size is supplied by the caller, build_region and
clear_region split their block lists with split size 10000: chunks of at
most 10000 blocks, preserving the original order of blocks across chunk
boundaries. -/
theorem c6_default_chunk_size
    (send : List Block → Except ChannelError (Int × String))
    (region : Region) (start : Location) (blocks blocksA : List Block)
    (hb : create_blocks region start none = some blocks)
    (ha : create_blocks region start (some "air") = some blocksA) :
    build_region_default_split_size = 10000 ∧
      clear_region_default_split_size = 10000 ∧
      DefaultChunkingSpec
        (build_region_run send region start build_region_default_split_size)
        blocks build_region_default_split_size ∧
      DefaultChunkingSpec
        (clear_region_run send region start clear_region_default_split_size)
        blocksA clear_region_default_split_size := by
  refine ⟨rfl, rfl, ?_, ?_⟩
  · obtain ⟨chunks, hs, hlen, hle, hfl⟩ :=
      split_list_pos_spec blocks build_region_default_split_size (by decide)
    refine ⟨chunks, hs, fun c hc => hle c hc, hfl, ?_⟩
    rw [build_region_run_pipeline, hb]
    exact region_pipeline_trace_initial send blocks _ chunks hs
  · obtain ⟨chunks, hs, hlen, hle, hfl⟩ :=
      split_list_pos_spec blocksA clear_region_default_split_size (by decide)
    refine ⟨chunks, hs, fun c hc => hle c hc, hfl, ?_⟩
    rw [clear_region_run_pipeline, ha]
    exact region_pipeline_trace_initial send blocksA _ chunks hs

/-- C6 witness: the default-size chunking at the concrete three-cell
region. -/
theorem c6_default_chunk_size_witness :
    (create_blocks exRegion exStart none = some [exStone, exDirt, exGranite] ∧
      create_blocks exRegion exStart (some "air")
        = some [Block.ofName "air" ⟨0, 0, 0⟩, Block.ofName "air" ⟨0, 0, 1⟩,
            Block.ofName "air" ⟨0, 0, 2⟩]) ∧
      (build_region_default_split_size = 10000 ∧
        clear_region_default_split_size = 10000 ∧
        DefaultChunkingSpec
          (build_region_run exSend exRegion exStart build_region_default_split_size)
          [exStone, exDirt, exGranite] build_region_default_split_size ∧
        DefaultChunkingSpec
          (clear_region_run exSend exRegion exStart clear_region_default_split_size)
          [Block.ofName "air" ⟨0, 0, 0⟩, Block.ofName "air" ⟨0, 0, 1⟩,
            Block.ofName "air" ⟨0, 0, 2⟩] clear_region_default_split_size) :=
  ⟨⟨by decide, by decide⟩,
    c6_default_chunk_size exSend exRegion exStart
      [exStone, exDirt, exGranite]
      [Block.ofName "air" ⟨0, 0, 0⟩, Block.ofName "air" ⟨0, 0, 1⟩,
        Block.ofName "air" ⟨0, 0, 2⟩] (by decide) (by decide)⟩

theorem connection_result_status_pair (π : Type) :
    StatusPairSpec (@connection_result π) := by
  constructor
  · intro s p
    rfl
  · intro r
    cases r with
    | reply s p =>
      simp only [connection_result]
      constructor
      · rintro ⟨e, he⟩
        exact absurd he (by simp)
      · rintro (h | h | h) <;> exact absurd h (by simp)
    | timeout => exact ⟨fun _ => Or.inl rfl, fun _ => ⟨ConnAbort.channelTimeout, rfl⟩⟩
    | transportLost =>
      exact ⟨fun _ => Or.inr (Or.inl rfl), fun _ => ⟨ConnAbort.connectionError, rfl⟩⟩
    | authDenied =>
      exact ⟨fun _ => Or.inr (Or.inr rfl), fun _ => ⟨ConnAbort.authenticationError, rfl⟩⟩

/-- C4: every exposed core operation (execute_commands, set_blocks,
get_blocks, get_players) returns a status/result pair — the status code
with the payload — and ordinary server-side rejection is reported through
that status value rather than by raising; only authentication failure,
transport loss and timeout abort instead of returning a result. -/
theorem c4_status_result_pairs :
    StatusPairSpec execute_commands ∧ StatusPairSpec set_blocks ∧
      StatusPairSpec get_blocks ∧ StatusPairSpec get_players :=
  ⟨connection_result_status_pair String, connection_result_status_pair (List Block),
    connection_result_status_pair (List Block),
    connection_result_status_pair (List Player)⟩

theorem length_flatMap_const (f : α → List β) (l : List α) (c : Nat)
    (h : ∀ a ∈ l, (f a).length = c) : (l.flatMap f).length = l.length * c := by
  induction l with
  | nil => simp
  | cons a t ih =>
    rw [List.flatMap_cons, List.length_append, h a (List.mem_cons_self ..),
      ih (fun b hb => h b (List.mem_cons_of_mem _ hb)), List.length_cons]
    ring

theorem intRange_length (n : Int) : (intRange n).length = n.toNat := by
  simp [intRange]

theorem fill_length (block : Block) (xl yl zl : Int) :
    (fill block xl yl zl).length = xl.toNat * (yl.toNat * zl.toNat) := by
  unfold fill
  rw [← intRange_length xl]
  apply length_flatMap_const
  intro x _
  rw [← intRange_length yl]
  apply length_flatMap_const
  intro y _
  rw [List.length_map, intRange_length]

/-- C7: location arithmetic is pure and allocating: for every Block b and
lengths xl, yl, zl ≥ 1, fill(b, xl, yl, zl) returns exactly xl*yl*zl
Blocks, each a new instance whose location is b's location offset by some
(dx, dy, dz) with 0 ≤ dx < xl, 0 ≤ dy < yl, 0 ≤ dz < zl and whose
namespace, name, state and inventory equal b's; the input block and its
location are never mutated (every result is a freshly constructed value). -/
theorem c7_fill_box (block : Block) (xl yl zl : Int)
    (hx : 1 ≤ xl) (hy : 1 ≤ yl) (hz : 1 ≤ zl) : FillSpec block xl yl zl := by
  unfold FillSpec
  constructor
  · rw [fill_length]
    push_cast [Int.toNat_of_nonneg (by omega : (0 : Int) ≤ xl),
      Int.toNat_of_nonneg (by omega : (0 : Int) ≤ yl),
      Int.toNat_of_nonneg (by omega : (0 : Int) ≤ zl)]
    ring
  · intro b hb
    unfold fill at hb
    rcases List.mem_flatMap.mp hb with ⟨x, hx1, hb⟩
    rcases List.mem_flatMap.mp hb with ⟨y, hy1, hb⟩
    rcases List.mem_map.mp hb with ⟨z, hz1, rfl⟩
    unfold intRange at hx1 hy1 hz1
    rcases List.mem_map.mp hx1 with ⟨xn, hxn, rfl⟩
    rcases List.mem_map.mp hy1 with ⟨yn, hyn, rfl⟩
    rcases List.mem_map.mp hz1 with ⟨zn, hzn, rfl⟩
    rw [List.mem_range] at hxn hyn hzn
    exact ⟨xn, yn, zn, by omega, by omega, by omega, by omega, by omega, by omega,
      rfl, rfl, rfl, rfl, rfl⟩

/-- C7 witness: the fill contract at a concrete 2 by 1 by 3 box. -/
theorem c7_fill_box_witness :
    ((1 : Int) ≤ 2 ∧ (1 : Int) ≤ 1 ∧ (1 : Int) ≤ 3) ∧ FillSpec exStone 2 1 3 :=
  ⟨⟨by decide, by decide, by decide⟩, c7_fill_box exStone 2 1 3 (by decide) (by decide) (by decide)⟩

theorem to_block_location (block_state : BlockState) (location : Location)
    (b : Block) (h : to_block block_state location = some b) :
    b.location = location := by
  unfold to_block at h
  rcases hsp : pySplit block_state.id ':' with _ | ⟨a, _ | ⟨c, _ | ⟨d, t⟩⟩⟩ <;>
    rw [hsp] at h
  · exact absurd h (by simp)
  · exact absurd h (by simp)
  · injection h with h'
    rw [← h']
  · exact absurd h (by simp)

theorem create_blocks_aux_air (region : Region) (sl : Location) (name : String) :
    ∀ cells : List (Int × Int × Int),
      create_blocks_aux region sl (some name) cells
        = some ((cells.filter
            (fun c => !((region.cells c.1 c.2.1 c.2.2).id == "minecraft:air"))).map
          (fun c => Block.ofName name (cellLocation sl c)))
  | [] => rfl
  | c :: cs => by
    unfold create_blocks_aux cellBlocks
    rw [create_blocks_aux_air region sl name cs]
    by_cases hair : (region.cells c.1 c.2.1 c.2.2).id = "minecraft:air"
    · rw [if_pos hair, List.filter_cons_of_neg (by simp [hair])]
      rfl
    · rw [if_neg hair, List.filter_cons_of_pos (by simp [hair]), List.map_cons]
      rfl

theorem create_blocks_aux_none (region : Region) (sl : Location) :
    ∀ cells : List (Int × Int × Int),
      (∀ c ∈ cells.filter
          (fun c => !((region.cells c.1 c.2.1 c.2.2).id == "minecraft:air")),
        (pySplit (region.cells c.1 c.2.1 c.2.2).id ':').length = 2) →
      create_blocks_aux region sl none cells
        = some ((cells.filter
            (fun c => !((region.cells c.1 c.2.1 c.2.2).id == "minecraft:air"))).map
          (specBlock region sl))
  | [], _ => rfl
  | c :: cs, h => by
    have ih := create_blocks_aux_none region sl cs (fun c' hc' => h c'
      (List.mem_filter.mpr ⟨List.mem_cons_of_mem _ (List.mem_filter.mp hc').1,
        (List.mem_filter.mp hc').2⟩))
    unfold create_blocks_aux cellBlocks
    rw [ih]
    by_cases hair : (region.cells c.1 c.2.1 c.2.2).id = "minecraft:air"
    · rw [if_pos hair, List.filter_cons_of_neg (by simp [hair])]
      rfl
    · have h2 := h c (List.mem_filter.mpr ⟨List.mem_cons_self .., by simp [hair]⟩)
      obtain ⟨ns, nm, hsp⟩ : ∃ ns nm,
          pySplit (region.cells c.1 c.2.1 c.2.2).id ':' = [ns, nm] := by
        rcases hl : pySplit (region.cells c.1 c.2.1 c.2.2).id ':' with
          _ | ⟨a, _ | ⟨b, _ | ⟨d, t⟩⟩⟩ <;> rw [hl] at h2
        · simp at h2
        · simp at h2
        · exact ⟨a, b, rfl⟩
        · simp at h2
      have hcb : (to_block (region.cells c.1 c.2.1 c.2.2)
            (cellLocation sl c)).map (fun b => [b])
          = some [specBlock region sl c] := by
        simp only [to_block, specBlock, hsp]
        rfl
      rw [if_neg hair]
      dsimp only
      rw [hcb, List.filter_cons_of_pos (by simp [hair]), List.map_cons]
      rfl

theorem mem_cellTriples (region : Region) (c : Int × Int × Int) :
    c ∈ cellTriples region ↔
      c.1 ∈ region.xrange ∧ c.2.1 ∈ region.yrange ∧ c.2.2 ∈ region.zrange := by
  unfold cellTriples
  constructor
  · intro h
    rcases List.mem_flatMap.mp h with ⟨x, hx, h⟩
    rcases List.mem_flatMap.mp h with ⟨y, hy, h⟩
    rcases List.mem_map.mp h with ⟨z, hz, rfl⟩
    exact ⟨hx, hy, hz⟩
  · rcases c with ⟨x, y, z⟩
    rintro ⟨hx, hy, hz⟩
    exact List.mem_flatMap.mpr ⟨x, hx,
      List.mem_flatMap.mpr ⟨y, hy, List.mem_map.mpr ⟨z, hz, rfl⟩⟩⟩

theorem create_blocks_aux_mem (region : Region) (sl : Location)
    (default_block_name : Option String) :
    ∀ (cells : List (Int × Int × Int)) (bs : List Block),
      create_blocks_aux region sl default_block_name cells = some bs →
      ∀ b ∈ bs, ∃ c ∈ cells,
        (region.cells c.1 c.2.1 c.2.2).id ≠ "minecraft:air" ∧
        b.location = cellLocation sl c
  | [], bs, h => by
    intro b hb
    unfold create_blocks_aux at h
    injection h with h'
    rw [← h'] at hb
    simp at hb
  | c :: cs, bs, h => by
    intro b hb
    unfold create_blocks_aux at h
    cases hcb : cellBlocks region sl default_block_name c with
    | none =>
      rw [hcb] at h
      exact absurd h (by simp)
    | some bsc =>
      rw [hcb] at h
      cases hrest : create_blocks_aux region sl default_block_name cs with
      | none =>
        rw [hrest] at h
        exact absurd h (by simp)
      | some rest =>
        rw [hrest] at h
        injection h with h'
        rw [← h'] at hb
        rcases List.mem_append.mp hb with hb1 | hb2
        · refine ⟨c, List.mem_cons_self .., ?_⟩
          unfold cellBlocks at hcb
          by_cases hair : (region.cells c.1 c.2.1 c.2.2).id = "minecraft:air"
          · rw [if_pos hair] at hcb
            injection hcb with h2
            rw [← h2] at hb1
            simp at hb1
          · refine ⟨hair, ?_⟩
            rw [if_neg hair] at hcb
            cases default_block_name with
            | some n =>
              dsimp only at hcb
              injection hcb with h2
              rw [← h2, List.mem_singleton] at hb1
              rw [hb1]
              rfl
            | none =>
              dsimp only at hcb
              cases htb : to_block (region.cells c.1 c.2.1 c.2.2)
                  (cellLocation sl c) with
              | none =>
                rw [htb] at hcb
                exact absurd hcb (by simp)
              | some blk =>
                rw [htb] at hcb
                injection hcb with h2
                rw [← h2, List.mem_singleton] at hb1
                rw [hb1]
                exact to_block_location _ _ _ htb
        · obtain ⟨c', hc', hrest'⟩ :=
            create_blocks_aux_mem region sl default_block_name cs rest hrest b hb2
          exact ⟨c', List.mem_cons_of_mem _ hc', hrest'⟩

/-- C8: each Block emitted by create_blocks for a cell (x, y, z) is placed
at (start.x + x - min_x - 1, start.y + y - min_y - 1, start.z + z - min_z - 1):
the whole build is shifted by -1 on every axis relative to the naive
anchoring start + (cell - region minimum). -/
theorem c8_anchor_shifted_by_one (region : Region) (start : Location)
    (default_block_name : Option String) (bs : List Block)
    (h : create_blocks region start default_block_name = some bs) :
    ∀ b ∈ bs, ∃ x y z, x ∈ region.xrange ∧ y ∈ region.yrange ∧
      z ∈ region.zrange ∧ (region.cells x y z).id ≠ "minecraft:air" ∧
      b.location = ⟨start.x + x - region.min_x - 1,
        start.y + y - region.min_y - 1, start.z + z - region.min_z - 1⟩ := by
  intro b hb
  obtain ⟨c, hc, hair, hloc⟩ := create_blocks_aux_mem region
    (modify_start_location start region) default_block_name
    (cellTriples region) bs h b hb
  obtain ⟨hx, hy, hz⟩ := (mem_cellTriples region c).mp hc
  refine ⟨c.1, c.2.1, c.2.2, hx, hy, hz, hair, ?_⟩
  rw [hloc]
  unfold cellLocation modify_start_location
  rw [Location.mk.injEq]
  refine ⟨by ring, by ring, by ring⟩

/-- C8 witness: the anchoring at the concrete three-cell region, whose
minima are 0 and whose start is (1, 1, 1): every block lands at
(1 + x - 1, 1 + y - 1, 1 + z - 1) = (x, y, z). -/
theorem c8_anchor_shifted_by_one_witness :
    create_blocks exRegion exStart none = some [exStone, exDirt, exGranite] ∧
      ∀ b ∈ [exStone, exDirt, exGranite], ∃ x y z, x ∈ exRegion.xrange ∧
        y ∈ exRegion.yrange ∧ z ∈ exRegion.zrange ∧
        (exRegion.cells x y z).id ≠ "minecraft:air" ∧
        b.location = ⟨exStart.x + x - exRegion.min_x - 1,
          exStart.y + y - exRegion.min_y - 1,
          exStart.z + z - exRegion.min_z - 1⟩ :=
  ⟨by decide,
    c8_anchor_shifted_by_one exRegion exStart none [exStone, exDirt, exGranite]
      (by decide)⟩

/-- C5: enumerating a schematic region yields exactly the cells whose block
identifier is not "minecraft:air", and for each such cell a Block carrying
the cell's namespace-qualified identifier and its full property map; air
cells are skipped, never emitted as blocks or errors. -/
theorem c5_non_air_enumeration (region : Region) (start : Location)
    (h : WellFormedIds region) : NonAirEnumerationSpec region start := by
  unfold NonAirEnumerationSpec
  constructor
  · unfold create_blocks
    exact create_blocks_aux_none region (modify_start_location start region)
      (cellTriples region) h
  · intro c hc
    have h2 := h c hc
    obtain ⟨ns, nm, hsp⟩ : ∃ ns nm,
        pySplit (region.cells c.1 c.2.1 c.2.2).id ':' = [ns, nm] := by
      rcases hl : pySplit (region.cells c.1 c.2.1 c.2.2).id ':' with
        _ | ⟨a, _ | ⟨b, _ | ⟨d, t⟩⟩⟩ <;> rw [hl] at h2
      · simp at h2
      · simp at h2
      · exact ⟨a, b, rfl⟩
      · simp at h2
    simp only [specBlock, hsp]
    exact ⟨trivial, trivial, trivial⟩

/-- C5 witness: the enumeration contract at the concrete three-cell
region. -/
theorem c5_non_air_enumeration_witness :
    WellFormedIds exRegion ∧ NonAirEnumerationSpec exRegion exStart :=
  ⟨by decide, c5_non_air_enumeration exRegion exStart (by decide)⟩

theorem override_specBlock (region : Region) (sl : Location)
    (c : Int × Int × Int) :
    override_to_air (specBlock region sl c)
      = Block.ofName "air" (cellLocation sl c) := by
  unfold override_to_air specBlock Block.ofName
  rcases hsp : pySplit (region.cells c.1 c.2.1 c.2.2).id ':' with
    _ | ⟨a, _ | ⟨b, _ | ⟨d, t⟩⟩⟩ <;> simp only [hsp]

theorem create_blocks_air_override (region : Region) (start : Location)
    (h : WellFormedIds region) :
    create_blocks region start (some "air")
      = (create_blocks region start none).map (List.map override_to_air) := by
  unfold create_blocks
  rw [create_blocks_aux_air region (modify_start_location start region) "air"
      (cellTriples region),
    create_blocks_aux_none region (modify_start_location start region)
      (cellTriples region) h]
  simp only [Option.map_some', List.map_map]
  congr 1
  apply List.map_congr_left
  intro c _
  exact (override_specBlock region (modify_start_location start region) c).symm

/-- C3: for every region with namespace-qualified identifiers and every
start location, the bulk clear operation is the same computation as the
bulk set operation except that every produced Block's identity is
overridden to the air block (name "air", default namespace, no state or
inventory): clear_region dispatches exactly the chunks of the overridden
block list through the identical enumeration, chunking, per-chunk dispatch
loop and failure behaviour as build_region. -/
theorem c3_clear_is_overridden_set_batch
    (send : List Block → Except ChannelError (Int × String))
    (region : Region) (start : Location) (k : Int)
    (h : WellFormedIds region) :
    clear_region_run send region start k
      = clear_region_spec_run send region start k := by
  rw [clear_region_run_pipeline, clear_region_spec_run_pipeline,
    create_blocks_air_override region start h]

/-- C3 witness: the refinement at the concrete three-cell region with chunk
size 1. -/
theorem c3_clear_is_overridden_set_batch_witness :
    WellFormedIds exRegion ∧
      clear_region_run exSend exRegion exStart 1
        = clear_region_spec_run exSend exRegion exStart 1 :=
  ⟨by decide,
    c3_clear_is_overridden_set_batch exSend exRegion exStart 1 (by decide)⟩
